import Mathlib

/-!
Shallow embedding of the History-Chatbot repository
(src/langchain_app.py and src/streamlit_app.py) and proofs about it.

The data model follows the spec's glossary: a Turn is a role-tagged
message, a ConversationHistory is an ordered list of Turns, and a
SessionStore is the python dict `session_histories` / `session_store`
mapping session ids to histories, modelled as an association list in
insertion order (python dicts preserve insertion order and hold at most
one value per key; the embedding keeps the key-uniqueness fact as an
explicit Nodup invariant).
-/

namespace HistoryChatbot

/-- Message role, as used by the langchain message constructors in the
prompt template: "system", "human" (the user) and the AI reply. -/
inductive Role where
  | user
  | assistant
  | system
  deriving DecidableEq

/-- One role-tagged message (spec glossary: Turn). -/
structure Turn where
  role : Role
  content : String
  deriving DecidableEq

/-- Ordered, append-only record of Turns for one session
(`InMemoryChatMessageHistory` in both source files). -/
abbrev ConversationHistory := List Turn

/-- The python dict `session_histories` (langchain_app.py line 38) /
`session_store` (streamlit_app.py line 26): session id to history, in
insertion order. -/
abbrev SessionStore := List (String × ConversationHistory)

/-- Dict lookup: `session_histories[session_id]` / the membership test
`session_id not in session_histories`. Returns the first (and, under the
dict invariant, only) binding for the key. -/
def lookupStore : SessionStore → String → Option ConversationHistory
  | [], _ => none
  | (k, h) :: rest, sid => if k = sid then some h else lookupStore rest sid

/-- The history currently stored for a session id, the empty history when
the id is absent (a fresh session's history has no turns). -/
def historyOf (store : SessionStore) (sid : String) : ConversationHistory :=
  (lookupStore store sid).getD []

/-- The keys of the store, in insertion order. -/
def storeKeys (store : SessionStore) : List String :=
  store.map Prod.fst

/-- Embeds `get_session_history` (langchain_app.py lines 40-43) and the
identical `_get_session_history` (streamlit_app.py lines 47-50):

    if session_id not in session_histories:
        session_histories[session_id] = InMemoryChatMessageHistory()
    return session_histories[session_id]

Returns the updated store together with the looked-up history; a new key
is inserted at the end, as python dict insertion does. -/
def get_session_history (store : SessionStore) (sid : String) :
    SessionStore × ConversationHistory :=
  match lookupStore store sid with
  | some h => (store, h)
  | none => (store ++ [(sid, [])], [])

/-- Dict-value mutation: append turns to the history stored under `sid`,
leaving every other binding unchanged (this is what
`InMemoryChatMessageHistory.add_messages` does to the stored object). -/
def storeAppend (store : SessionStore) (sid : String) (ts : List Turn) :
    SessionStore :=
  store.map fun p => if p.1 = sid then (p.1, p.2 ++ ts) else p

/-- The fixed persona instruction, `system_template` in both source files
(langchain_app.py line 20, streamlit_app.py lines 27-30). -/
def system_template : String :=
  "You are a knowlegeable history teacher. You are given a question and you need to answer it in a way that is easy to understand and engaging for a 10 year old."

/-- One entry of a `ChatPromptTemplate.from_messages` list: the
`("system", system_template)` literal, the
`MessagesPlaceholder(variable_name="history")` slot, or the
`("human", "{question}")` message whose whole body is the question
variable. -/
inductive MsgTemplate where
  | systemMsg (text : String)
  | historyPlaceholder
  | humanQuestion
  deriving DecidableEq

/-- The three-entry message list passed to `ChatPromptTemplate.from_messages`
(langchain_app.py lines 22-26, streamlit_app.py lines 32-38), with the
system instruction as a parameter. -/
def mkPromptTemplate (systemInstruction : String) : List MsgTemplate :=
  [.systemMsg systemInstruction, .historyPlaceholder, .humanQuestion]

/-- `prompt_template` of langchain_app.py: the template with the fixed
persona instruction. -/
def prompt_template : List MsgTemplate :=
  mkPromptTemplate system_template

/-- Template formatting: each literal becomes one role-tagged message, the
placeholder expands to the history turns in order, and the human message
becomes the new user turn. This is what invoking the template with
`{question: ..., history: ...}` produces. -/
def formatMessages (tmpl : List MsgTemplate) (history : List Turn)
    (question : String) : List Turn :=
  match tmpl with
  | [] => []
  | .systemMsg t :: rest => ⟨.system, t⟩ :: formatMessages rest history question
  | .historyPlaceholder :: rest => history ++ formatMessages rest history question
  | .humanQuestion :: rest => ⟨.user, question⟩ :: formatMessages rest history question

/-- Prompt assembly (spec §4.3 `assemble`): format the chat prompt
template built from the given system instruction with the history and the
new question. -/
def assemble (systemInstruction : String) (history : List Turn)
    (question : String) : List Turn :=
  formatMessages (mkPromptTemplate systemInstruction) history question

/-- The external model client collaborator (spec §6): maps a structured
prompt to either the reply text or an error carrying the provider's
message. -/
abbrev ModelClient := List Turn → Except String String

/-- Error taxonomy of spec §7. -/
inductive ErrorKind where
  | InvalidInput
  | ModelInvocationError (cause : String)
  deriving DecidableEq

/-- The prompt a `conversation.invoke` call sends to the model for a given
store, session id and question: the fixed template formatted with the
session's current history and the question. -/
def promptFor (store : SessionStore) (sid question : String) : List Turn :=
  assemble system_template (get_session_history store sid).2 question

/-- Modelled from the spec: the ConversationRunner orchestration of §4.4,
which in the source is performed by the third-party
`RunnableWithMessageHistory` wrapper (`conversation` in langchain_app.py
lines 45-50, the value returned by `build_conversation` in
streamlit_app.py lines 52-57), whose code is not part of this repository.
It looks up or creates the session's history, assembles the prompt from
the fixed template, the history and the question, and invokes the model
client; on success it records the user turn then the assistant turn into
the stored history and returns the reply text; on failure it propagates a
`ModelInvocationError` carrying the underlying cause and leaves every
stored history as it was. Note that neither the wrapper nor either call
site in src/ performs any emptiness validation of the question: the
history entry is created and the model client is invoked whatever the
question text is. -/
def handleQuestion (client : ModelClient) (store : SessionStore)
    (sid question : String) : SessionStore × Except ErrorKind String :=
  match client (promptFor store sid question) with
  | .error cause =>
      ((get_session_history store sid).1, .error (.ModelInvocationError cause))
  | .ok reply =>
      (storeAppend (get_session_history store sid).1 sid
        [⟨.user, question⟩, ⟨.assistant, reply⟩], .ok reply)

/-- One step of the CLI loop's input dispatch (langchain_app.py lines
54-58): an input whose lowercase form is "exit" breaks the loop, anything
else is sent to the conversation as a question. -/
inductive CLIAction where
  | exitLoop
  | ask (question : String)
  deriving DecidableEq

/-- Python's `str.lower()` on the ASCII inputs relevant here: lower-case
every character. -/
def lower (s : String) : String :=
  String.mk (s.data.map Char.toLower)

/-- Embeds the `if user_input.lower() == "exit": break` test of the CLI
loop (langchain_app.py line 56). -/
def cliStep (user_input : String) : CLIAction :=
  if lower user_input = "exit" then .exitLoop else .ask user_input

/-- The CLI loop (langchain_app.py lines 54-66) run over a finite list of
input lines: each non-exit input is sent to `conversation.invoke` with the
constant session id "default" (line 62); errors are caught and printed, so
the loop continues with the store as the failed call left it. Returns the
final session store and the number of model invocations made. -/
def cliRun (client : ModelClient) (store : SessionStore) :
    List String → SessionStore × Nat
  | [] => (store, 0)
  | input :: rest =>
      match cliStep input with
      | .exitLoop => (store, 0)
      | .ask q =>
          let r := cliRun client (handleQuestion client store "default" q).1 rest
          (r.1, r.2 + 1)

/-- The temperature the CLI front end passes to the model constructor
(langchain_app.py line 31): the constant 0.7. -/
def cli_temperature : ℚ := 7 / 10

/-- The positional second argument of `st.slider("Temperature", 0.7)`
(streamlit_app.py line 83), which is the slider's `min_value`. -/
def slider_min_value : ℚ := 7 / 10

/-- The slider's `max_value`: not given at the call site, so the external
streamlit collaborator's default for a float slider, 1.0, applies. -/
def slider_max_value : ℚ := 1

/-- The slider's initial value: not given at the call site, so the
external streamlit collaborator defaults it to `min_value`. -/
def slider_default_value : ℚ := slider_min_value

/-- The browser front end's chat-input handler (streamlit_app.py lines
113-127): a falsy (empty or absent) input submits nothing; otherwise the
user message is appended to the rendered message list, the conversation is
invoked, and on success the assistant reply is appended too (on failure
the exception propagates after the user message was already rendered).
Returns the session store, the rendered message list and the number of
model invocations made. -/
def streamlit_on_input (client : ModelClient) (store : SessionStore)
    (sid : String) (messages : List Turn) (user_input : String) :
    SessionStore × List Turn × Nat :=
  if user_input = "" then (store, messages, 0)
  else
    let messages1 := messages ++ [⟨.user, user_input⟩]
    match handleQuestion client store sid user_input with
    | (store1, .ok answer) => (store1, messages1 ++ [⟨.assistant, answer⟩], 1)
    | (store1, .error _) => (store1, messages1, 1)

/-- A deterministic model client that always succeeds, for concrete
evaluations. -/
def okClient : ModelClient := fun _ => .ok "Akbar was a Mughal emperor"

/-- A deterministic model client that always fails with a quota message,
for concrete evaluations. -/
def quotaClient : ModelClient := fun _ => .error "quota exceeded"

/-! Helper lemmas about the store operations. -/

/-- Unfolding equation for `lookupStore` on a cons cell. -/
theorem lookupStore_cons (k : String) (h : ConversationHistory)
    (rest : SessionStore) (sid : String) :
    lookupStore ((k, h) :: rest) sid =
      if k = sid then some h else lookupStore rest sid := rfl

/-- Unfolding equation for `storeKeys` on a cons cell. -/
theorem storeKeys_cons (k : String) (h : ConversationHistory)
    (rest : SessionStore) :
    storeKeys ((k, h) :: rest) = k :: storeKeys rest := rfl

/-- Unfolding equation for `storeAppend` on a cons cell. -/
theorem storeAppend_cons (k : String) (hh : ConversationHistory)
    (rest : SessionStore) (sid : String) (ts : List Turn) :
    storeAppend ((k, hh) :: rest) sid ts =
      (if k = sid then (k, hh ++ ts) else (k, hh)) :: storeAppend rest sid ts := by
  simp only [storeAppend, List.map_cons]

/-- Lookup distributes over store concatenation, first match wins. -/
theorem lookupStore_append (s1 s2 : SessionStore) (sid : String) :
    lookupStore (s1 ++ s2) sid =
      match lookupStore s1 sid with
      | some h => some h
      | none => lookupStore s2 sid := by
  induction s1 with
  | nil => simp [lookupStore]
  | cons p rest ih =>
    obtain ⟨k, h⟩ := p
    by_cases hk : k = sid <;> simp [lookupStore, hk, ih]

/-- A lookup misses exactly when the id is not among the store's keys. -/
theorem lookupStore_none_iff (store : SessionStore) (sid : String) :
    lookupStore store sid = none ↔ sid ∉ storeKeys store := by
  induction store with
  | nil => simp [lookupStore, storeKeys]
  | cons p rest ih =>
    obtain ⟨k, h⟩ := p
    by_cases hk : k = sid
    · subst hk
      simp [lookupStore, storeKeys]
    · simp [lookupStore, storeKeys, hk, Ne.symm hk, ih]

/-- A lookup hit characterizes `get_session_history`: the store is left
unchanged and the stored history is returned. -/
theorem gsh_of_lookup_some (store : SessionStore) (sid : String)
    (h : ConversationHistory) (hl : lookupStore store sid = some h) :
    get_session_history store sid = (store, h) := by
  simp [get_session_history, hl]

/-- A lookup miss characterizes `get_session_history`: an empty history is
inserted at the end of the store and returned. -/
theorem gsh_of_lookup_none (store : SessionStore) (sid : String)
    (hl : lookupStore store sid = none) :
    get_session_history store sid = (store ++ [(sid, [])], []) := by
  simp [get_session_history, hl]

/-- The history `get_session_history` returns is the one `historyOf`
describes. -/
theorem gsh_snd (store : SessionStore) (sid : String) :
    (get_session_history store sid).2 = historyOf store sid := by
  unfold get_session_history historyOf
  cases hl : lookupStore store sid <;> simp [hl]

/-- After `get_session_history`, looking the id up in the updated store
finds exactly the session's previous history. -/
theorem lookupStore_gsh_self (store : SessionStore) (sid : String) :
    lookupStore (get_session_history store sid).1 sid =
      some (historyOf store sid) := by
  unfold get_session_history historyOf
  cases hl : lookupStore store sid with
  | some h => simp [hl]
  | none => simp [hl, lookupStore_append, lookupStore]

/-- `get_session_history` leaves every other session's binding unchanged. -/
theorem lookupStore_gsh_other (store : SessionStore) (sid other : String)
    (h : other ≠ sid) :
    lookupStore (get_session_history store sid).1 other =
      lookupStore store other := by
  unfold get_session_history
  cases hl : lookupStore store sid with
  | some _ => simp [hl]
  | none =>
    simp only [hl]
    rw [lookupStore_append]
    cases ho : lookupStore store other <;> simp [ho, lookupStore, Ne.symm h]

/-- Appending turns under an id updates that id's binding. -/
theorem lookupStore_storeAppend_self (store : SessionStore) (sid : String)
    (ts : List Turn) (h : ConversationHistory)
    (hl : lookupStore store sid = some h) :
    lookupStore (storeAppend store sid ts) sid = some (h ++ ts) := by
  induction store with
  | nil => simp [lookupStore] at hl
  | cons p rest ih =>
    obtain ⟨k, hh⟩ := p
    rw [storeAppend_cons]
    by_cases hk : k = sid
    · subst hk
      rw [lookupStore_cons, if_pos rfl] at hl
      injection hl with hl2
      subst hl2
      rw [if_pos rfl, lookupStore_cons, if_pos rfl]
    · rw [lookupStore_cons, if_neg hk] at hl
      rw [if_neg hk, lookupStore_cons, if_neg hk]
      exact ih hl

/-- Appending turns under one id leaves every other binding unchanged. -/
theorem lookupStore_storeAppend_other (store : SessionStore)
    (sid other : String) (ts : List Turn) (h : other ≠ sid) :
    lookupStore (storeAppend store sid ts) other = lookupStore store other := by
  induction store with
  | nil => rfl
  | cons p rest ih =>
    obtain ⟨k, hh⟩ := p
    rw [storeAppend_cons]
    by_cases hk : k = sid
    · subst hk
      rw [if_pos rfl, lookupStore_cons, lookupStore_cons]
      by_cases hko : k = other
      · exact absurd hko.symm h
      · rw [if_neg hko, if_neg hko]
        exact ih
    · rw [if_neg hk, lookupStore_cons, lookupStore_cons]
      by_cases hko : k = other
      · rw [if_pos hko, if_pos hko]
      · rw [if_neg hko, if_neg hko]
        exact ih

/-- `storeAppend` never changes the key sequence. -/
theorem storeKeys_storeAppend (store : SessionStore) (sid : String)
    (ts : List Turn) :
    storeKeys (storeAppend store sid ts) = storeKeys store := by
  induction store with
  | nil => rfl
  | cons p rest ih =>
    obtain ⟨k, hh⟩ := p
    rw [storeAppend_cons]
    by_cases hk : k = sid <;> simp [storeKeys, hk] <;>
      simpa [storeKeys] using ih

/-- `get_session_history` either keeps the key sequence or extends it with
the requested id at the end. -/
theorem storeKeys_gsh (store : SessionStore) (sid : String) :
    storeKeys (get_session_history store sid).1 = storeKeys store ∨
    storeKeys (get_session_history store sid).1 = storeKeys store ++ [sid] := by
  unfold get_session_history
  cases hl : lookupStore store sid with
  | some h => exact Or.inl rfl
  | none =>
    right
    simp [storeKeys]

/-- The store after `handleQuestion` is the looked-up store either as is
(failure) or with the two new turns appended under the session id
(success). -/
theorem handleQuestion_fst (client : ModelClient) (store : SessionStore)
    (sid q : String) :
    (handleQuestion client store sid q).1 = (get_session_history store sid).1 ∨
    ∃ reply, (handleQuestion client store sid q).1 =
      storeAppend (get_session_history store sid).1 sid
        [⟨Role.user, q⟩, ⟨Role.assistant, reply⟩] := by
  cases hc : client (promptFor store sid q) with
  | error c =>
    left
    simp [handleQuestion, hc]
  | ok r =>
    right
    exact ⟨r, by simp [handleQuestion, hc]⟩

/-- `handleQuestion` either keeps the key sequence or extends it with the
session id at the end. -/
theorem storeKeys_handleQuestion (client : ModelClient) (store : SessionStore)
    (sid q : String) :
    storeKeys (handleQuestion client store sid q).1 = storeKeys store ∨
    storeKeys (handleQuestion client store sid q).1 =
      storeKeys store ++ [sid] := by
  rcases handleQuestion_fst client store sid q with h | ⟨r, h⟩
  · rw [h]
    exact storeKeys_gsh store sid
  · rw [h, storeKeys_storeAppend]
    exact storeKeys_gsh store sid

/-- Every key the CLI loop ever inserts is "default". -/
theorem cliRun_keys_default (client : ModelClient) :
    ∀ (inputs : List String) (store : SessionStore),
      (∀ k ∈ storeKeys store, k = "default") →
      ∀ k ∈ storeKeys (cliRun client store inputs).1, k = "default" := by
  intro inputs
  induction inputs with
  | nil => exact fun store hs k hk => hs k hk
  | cons input rest ih =>
    intro store hs k hk
    simp only [cliRun] at hk
    cases hstep : cliStep input with
    | exitLoop =>
      rw [hstep] at hk
      exact hs k hk
    | ask q =>
      rw [hstep] at hk
      refine ih (handleQuestion client store "default" q).1 ?_ k hk
      intro k2 hk2
      rcases storeKeys_handleQuestion client store "default" q with he | he
      · exact hs k2 (he ▸ hk2)
      · rw [he] at hk2
        rcases List.mem_append.1 hk2 with h2 | h2
        · exact hs k2 h2
        · simpa using h2

/-! Claim theorems. -/

/-- C1: a successful `handleQuestion` invocation returns the assistant
reply text and appends exactly the user turn followed by the assistant
turn to the session's history, so the history length grows by exactly 2
and the prior turns are preserved unchanged and in order (the new history
is the old history with the two turns appended at the end). -/
theorem C1_success_appends_two_turns (client : ModelClient)
    (store : SessionStore) (sid question reply : String)
    (hok : client (promptFor store sid question) = Except.ok reply) :
    (handleQuestion client store sid question).2 = Except.ok reply ∧
    historyOf (handleQuestion client store sid question).1 sid =
      historyOf store sid ++
        [⟨Role.user, question⟩, ⟨Role.assistant, reply⟩] ∧
    (historyOf (handleQuestion client store sid question).1 sid).length =
      (historyOf store sid).length + 2 := by
  have hstore : (handleQuestion client store sid question).1 =
      storeAppend (get_session_history store sid).1 sid
        [⟨Role.user, question⟩, ⟨Role.assistant, reply⟩] := by
    simp [handleQuestion, hok]
  have hres : (handleQuestion client store sid question).2 = Except.ok reply := by
    simp [handleQuestion, hok]
  have hhist : historyOf (handleQuestion client store sid question).1 sid =
      historyOf store sid ++
        [⟨Role.user, question⟩, ⟨Role.assistant, reply⟩] := by
    rw [hstore]
    have h2 := lookupStore_storeAppend_self (get_session_history store sid).1
      sid [⟨Role.user, question⟩, ⟨Role.assistant, reply⟩]
      (historyOf store sid) (lookupStore_gsh_self store sid)
    unfold historyOf
    rw [h2]
    rfl
  exact ⟨hres, hhist, by rw [hhist]; simp⟩

/-- Witness for C1 at a concrete input: Scenario A of the spec with an
empty store, session "s1" and a client that answers the question. -/
theorem C1_success_appends_two_turns_witness :
    (handleQuestion okClient [] "s1" "Who was Akbar?").2 =
      Except.ok "Akbar was a Mughal emperor" ∧
    historyOf (handleQuestion okClient [] "s1" "Who was Akbar?").1 "s1" =
      historyOf ([] : SessionStore) "s1" ++
        [⟨Role.user, "Who was Akbar?"⟩,
         ⟨Role.assistant, "Akbar was a Mughal emperor"⟩] ∧
    (historyOf (handleQuestion okClient [] "s1" "Who was Akbar?").1
        "s1").length =
      (historyOf ([] : SessionStore) "s1").length + 2 :=
  C1_success_appends_two_turns okClient [] "s1" "Who was Akbar?"
    "Akbar was a Mughal emperor" rfl

/-- C2: when the model client raises, `handleQuestion` surfaces a
`ModelInvocationError` carrying the underlying cause, and every session's
stored history (in particular the invoked session's) is exactly what it
was before the call. -/
theorem C2_failure_preserves_history (client : ModelClient)
    (store : SessionStore) (sid question cause : String)
    (herr : client (promptFor store sid question) = Except.error cause) :
    (handleQuestion client store sid question).2 =
      Except.error (ErrorKind.ModelInvocationError cause) ∧
    ∀ s, historyOf (handleQuestion client store sid question).1 s =
      historyOf store s := by
  have hstore : (handleQuestion client store sid question).1 =
      (get_session_history store sid).1 := by
    simp [handleQuestion, herr]
  refine ⟨by simp [handleQuestion, herr], ?_⟩
  intro s
  rw [hstore]
  by_cases hs : s = sid
  · subst hs
    unfold historyOf
    rw [lookupStore_gsh_self]
    rfl
  · unfold historyOf
    rw [lookupStore_gsh_other store sid s hs]

/-- Witness for C2 at a concrete input: Scenario D of the spec, a quota
error on session "s1" with one prior exchange in the store. -/
theorem C2_failure_preserves_history_witness :
    (handleQuestion quotaClient
        [("s1", [⟨Role.user, "hi"⟩, ⟨Role.assistant, "hello"⟩])]
        "s1" "Who was Ashoka?").2 =
      Except.error (ErrorKind.ModelInvocationError "quota exceeded") ∧
    ∀ s, historyOf (handleQuestion quotaClient
        [("s1", [⟨Role.user, "hi"⟩, ⟨Role.assistant, "hello"⟩])]
        "s1" "Who was Ashoka?").1 s =
      historyOf [("s1", [⟨Role.user, "hi"⟩, ⟨Role.assistant, "hello"⟩])] s :=
  C2_failure_preserves_history quotaClient
    [("s1", [⟨Role.user, "hi"⟩, ⟨Role.assistant, "hello"⟩])]
    "s1" "Who was Ashoka?" "quota exceeded" rfl

/-- C4: `get_session_history` returns the stored history unchanged when
the id is present, otherwise inserts an empty history under the id and
returns it; a second call with the same id then returns the same store
and history, and the store's keys stay duplicate-free, so it never holds
more than one history per id. -/
theorem C4_get_or_create (store : SessionStore) (sid : String) :
    (∀ h, lookupStore store sid = some h →
      get_session_history store sid = (store, h)) ∧
    (lookupStore store sid = none →
      get_session_history store sid = (store ++ [(sid, [])], []) ∧
      lookupStore (store ++ [(sid, [])]) sid = some []) ∧
    get_session_history (get_session_history store sid).1 sid =
      ((get_session_history store sid).1, (get_session_history store sid).2) ∧
    ((storeKeys store).Nodup →
      (storeKeys (get_session_history store sid).1).Nodup) := by
  refine ⟨gsh_of_lookup_some store sid, ?_, ?_, ?_⟩
  · intro hl
    refine ⟨gsh_of_lookup_none store sid hl, ?_⟩
    rw [lookupStore_append]
    simp [hl, lookupStore]
  · rw [gsh_of_lookup_some (get_session_history store sid).1 sid
      (historyOf store sid) (lookupStore_gsh_self store sid), gsh_snd]
  · intro hnd
    cases hl : lookupStore store sid with
    | some h =>
      rw [gsh_of_lookup_some store sid h hl]
      exact hnd
    | none =>
      rw [gsh_of_lookup_none store sid hl]
      have hmem : sid ∉ storeKeys store := (lookupStore_none_iff store sid).1 hl
      have hkeys : storeKeys (store ++ [(sid, [])]) = storeKeys store ++ [sid] := by
        simp [storeKeys]
      rw [hkeys]
      refine List.Nodup.append hnd (List.nodup_singleton sid) ?_
      intro a ha hb
      rw [List.mem_singleton] at hb
      exact hmem (hb ▸ ha)

/-- Witness for C4 at concrete inputs: a present id returns the stored
binding, an absent id creates one, and a repeated call is idempotent. -/
theorem C4_get_or_create_witness :
    get_session_history [("s1", [⟨Role.user, "hi"⟩])] "s1" =
      ([("s1", [⟨Role.user, "hi"⟩])], [⟨Role.user, "hi"⟩]) ∧
    (get_session_history [] "s2" = ([("s2", [])], []) ∧
      lookupStore ([] ++ [("s2", [])]) "s2" = some []) ∧
    get_session_history (get_session_history [] "s2").1 "s2" =
      ((get_session_history [] "s2").1, (get_session_history [] "s2").2) ∧
    (storeKeys (get_session_history [] "s2").1).Nodup :=
  ⟨(C4_get_or_create [("s1", [⟨Role.user, "hi"⟩])] "s1").1 [⟨Role.user, "hi"⟩] rfl,
   (C4_get_or_create [] "s2").2.1 rfl,
   (C4_get_or_create [] "s2").2.2.1,
   (C4_get_or_create [] "s2").2.2.2 List.nodup_nil⟩

/-- C5: prompt assembly is the pure function producing the system
instruction, then the history turns unchanged (each keeping its recorded
role), then the new question tagged as the user; calling it twice on
identical inputs yields identical output. -/
theorem C5_assemble_deterministic (si : String) (history : List Turn)
    (question : String) :
    assemble si history question =
      ⟨Role.system, si⟩ :: (history ++ [⟨Role.user, question⟩]) ∧
    ∀ h2 q2, h2 = history → q2 = question →
      assemble si h2 q2 = assemble si history question := by
  constructor
  · simp [assemble, mkPromptTemplate, formatMessages]
  · intro h2 q2 e1 e2
    rw [e1, e2]

/-- Witness for C5 at a concrete input, including the repeated-call
conjunct with its equality hypotheses discharged. -/
theorem C5_assemble_deterministic_witness :
    assemble system_template [⟨Role.user, "hi"⟩] "Who was Akbar?" =
      ⟨Role.system, system_template⟩ ::
        ([⟨Role.user, "hi"⟩] ++ [⟨Role.user, "Who was Akbar?"⟩]) ∧
    assemble system_template [⟨Role.user, "hi"⟩] "Who was Akbar?" =
      assemble system_template [⟨Role.user, "hi"⟩] "Who was Akbar?" :=
  ⟨(C5_assemble_deterministic system_template [⟨Role.user, "hi"⟩]
      "Who was Akbar?").1,
   (C5_assemble_deterministic system_template [⟨Role.user, "hi"⟩]
      "Who was Akbar?").2 [⟨Role.user, "hi"⟩] "Who was Akbar?" rfl rfl⟩

/-- C6: a `handleQuestion` invocation on session `a` leaves the stored
binding of every distinct session `b` untouched: its presence, its
contents and hence its length are unchanged. -/
theorem C6_session_isolation (client : ModelClient) (store : SessionStore)
    (a b question : String) (hab : b ≠ a) :
    lookupStore (handleQuestion client store a question).1 b =
      lookupStore store b ∧
    historyOf (handleQuestion client store a question).1 b =
      historyOf store b := by
  have hl : lookupStore (handleQuestion client store a question).1 b =
      lookupStore store b := by
    rcases handleQuestion_fst client store a question with h | ⟨r, h⟩
    · rw [h]
      exact lookupStore_gsh_other store a b hab
    · rw [h, lookupStore_storeAppend_other _ a b _ hab]
      exact lookupStore_gsh_other store a b hab
  exact ⟨hl, by unfold historyOf; rw [hl]⟩

/-- Witness for C6 at concrete inputs: a question on session "s1" leaves
session "s2"'s stored turn untouched. -/
theorem C6_session_isolation_witness :
    lookupStore (handleQuestion okClient [("s2", [⟨Role.user, "hi"⟩])]
        "s1" "Who was Akbar?").1 "s2" =
      lookupStore [("s2", [⟨Role.user, "hi"⟩])] "s2" ∧
    historyOf (handleQuestion okClient [("s2", [⟨Role.user, "hi"⟩])]
        "s1" "Who was Akbar?").1 "s2" =
      historyOf [("s2", [⟨Role.user, "hi"⟩])] "s2" :=
  C6_session_isolation okClient [("s2", [⟨Role.user, "hi"⟩])]
    "s1" "s2" "Who was Akbar?" (by decide)

/-- C7: the temperature handed to the model constructor is 0.7 in the CLI
front end; in the browser front end the slider's initial value is 0.7 and
every value it can produce lies between its minimum 0.7 and its maximum
1, hence within [0, 1] in both front ends, with default 0.7. -/
theorem C7_temperature_in_range :
    cli_temperature = 7 / 10 ∧
    0 ≤ cli_temperature ∧ cli_temperature ≤ 1 ∧
    slider_default_value = 7 / 10 ∧
    ∀ t : ℚ, slider_min_value ≤ t → t ≤ slider_max_value →
      0 ≤ t ∧ t ≤ 1 := by
  refine ⟨rfl, by norm_num [cli_temperature], by norm_num [cli_temperature],
    rfl, ?_⟩
  intro t h1 h2
  constructor
  · exact le_trans (by norm_num [slider_min_value]) h1
  · simpa [slider_max_value] using h2

/-- Witness for C7 at the slider's own default position. -/
theorem C7_temperature_in_range_witness :
    0 ≤ (7 / 10 : ℚ) ∧ (7 / 10 : ℚ) ≤ 1 :=
  C7_temperature_in_range.2.2.2.2 (7 / 10)
    (by norm_num [slider_min_value]) (by norm_num [slider_max_value])

/-- C8: the prompt a `handleQuestion` invocation sends to the model is the
system instruction, then the session's entire stored history in
chronological order, then the new user turn: the history embeds into the
prompt as-is and the prompt's length is the history's length plus two, so
no truncation or windowing occurs however long the history is. -/
theorem C8_full_history_replayed (store : SessionStore)
    (sid question : String) :
    promptFor store sid question =
      ⟨Role.system, system_template⟩ ::
        (historyOf store sid ++ [⟨Role.user, question⟩]) ∧
    List.Sublist (historyOf store sid) (promptFor store sid question) ∧
    (promptFor store sid question).length =
      (historyOf store sid).length + 2 := by
  have h1 : promptFor store sid question =
      ⟨Role.system, system_template⟩ ::
        (historyOf store sid ++ [⟨Role.user, question⟩]) := by
    simp [promptFor, assemble, mkPromptTemplate, formatMessages, gsh_snd]
  refine ⟨h1, ?_, ?_⟩
  · rw [h1]
    exact List.Sublist.cons _ (List.sublist_append_left _ _)
  · rw [h1]
    simp

/-- C9: a CLI input whose lowercase form is "exit" breaks the loop at
once: the loop dispatch yields the exit action, and running the loop on
that input followed by any further lines returns the store exactly as it
was with zero model invocations, so the input is never answered as a
question. -/
theorem C9_exit_terminates (client : ModelClient) (store : SessionStore)
    (s : String) (rest : List String) (hs : lower s = "exit") :
    cliStep s = CLIAction.exitLoop ∧
    cliRun client store (s :: rest) = (store, 0) := by
  have hstep : cliStep s = CLIAction.exitLoop := by
    simp [cliStep, hs]
  exact ⟨hstep, by simp [cliRun, hstep]⟩

/-- Witness for C9: the uppercase input "EXIT" stops the loop before a
pending question is ever sent. -/
theorem C9_exit_terminates_witness :
    cliStep "EXIT" = CLIAction.exitLoop ∧
    cliRun okClient [("default", [⟨Role.user, "hi"⟩])]
      ["EXIT", "Who was Akbar?"] = ([("default", [⟨Role.user, "hi"⟩])], 0) :=
  C9_exit_terminates okClient [("default", [⟨Role.user, "hi"⟩])]
    "EXIT" ["Who was Akbar?"] (by decide)

/-- C10: the CLI loop invokes the conversation with the constant session
id "default", so starting from the empty store of a fresh process, every
binding the store ever holds is keyed "default": all exchanges of the
process accumulate in that single shared history. -/
theorem C10_cli_single_default_session (client : ModelClient)
    (inputs : List String) :
    ∀ p ∈ (cliRun client [] inputs).1, p.1 = "default" := by
  intro p hp
  have hk : p.1 ∈ storeKeys (cliRun client [] inputs).1 :=
    List.mem_map_of_mem Prod.fst hp
  exact cliRun_keys_default client inputs [] (by simp [storeKeys]) p.1 hk

/-- Witness for C10: after one answered question the store holds exactly
the "default" binding, and the theorem applies to it. -/
theorem C10_cli_single_default_session_witness :
    (("default",
        ([⟨Role.user, "hi"⟩, ⟨Role.assistant, "Akbar was a Mughal emperor"⟩] :
          ConversationHistory)) ∈ (cliRun okClient [] ["hi"]).1) ∧
    ("default",
        ([⟨Role.user, "hi"⟩, ⟨Role.assistant, "Akbar was a Mughal emperor"⟩] :
          ConversationHistory)).1 = "default" :=
  ⟨by decide,
   C10_cli_single_default_session okClient ["hi"]
     ("default",
       [⟨Role.user, "hi"⟩, ⟨Role.assistant, "Akbar was a Mughal emperor"⟩])
     (by decide)⟩

/-- C3 counterexample: on the empty question the code does not fail with
InvalidInput and does not leave state untouched: with a succeeding client
the invocation returns the reply, the "default" session's history gains
the two turns, and running the CLI loop on the single empty input line
invokes the model once. -/
theorem C3_counterexample :
    (handleQuestion okClient [] "default" "").2 =
      Except.ok "Akbar was a Mughal emperor" ∧
    historyOf (handleQuestion okClient [] "default" "").1 "default" =
      [⟨Role.user, ""⟩, ⟨Role.assistant, "Akbar was a Mughal emperor"⟩] ∧
    (cliRun okClient [] [""]).2 = 1 := by
  refine ⟨rfl, ?_, rfl⟩
  decide

/-- C3 amended: neither front end validates the question text. The
browser front end silently submits nothing on a falsy (empty) input —
no state change, no model call and no error — but sends a whitespace-only
input to the model; the CLI front end sends any non-"exit" input,
including empty and whitespace-only ones, to the model; and the runner
never produces an InvalidInput failure. -/
theorem C3_no_empty_question_validation (client : ModelClient)
    (store : SessionStore) (sid question : String) (messages : List Turn) :
    streamlit_on_input client store sid messages "" = (store, messages, 0) ∧
    (question ≠ "" →
      (streamlit_on_input client store sid messages question).2.2 = 1) ∧
    (lower question ≠ "exit" → (cliRun client store [question]).2 = 1) ∧
    (handleQuestion client store sid question).2 ≠
      Except.error ErrorKind.InvalidInput := by
  refine ⟨by simp [streamlit_on_input], ?_, ?_, ?_⟩
  · intro hq
    simp only [streamlit_on_input, if_neg hq]
    cases hq2 : handleQuestion client store sid question with
    | mk s r => cases r <;> simp
  · intro hq
    have hstep : cliStep question = CLIAction.ask question := by
      simp [cliStep, hq]
    simp [cliRun, hstep]
  · cases hc : client (promptFor store sid question) with
    | error c => simp [handleQuestion, hc]
    | ok r => simp [handleQuestion, hc]

/-- Witness for C3 amended at the whitespace-only question " ": both
front ends send it to the model and the result is not InvalidInput. -/
theorem C3_no_empty_question_validation_witness :
    streamlit_on_input okClient [] "s1" [] "" = ([], [], 0) ∧
    (streamlit_on_input okClient [] "s1" [] " ").2.2 = 1 ∧
    (cliRun okClient [] [" "]).2 = 1 ∧
    (handleQuestion okClient [] "s1" " ").2 ≠
      Except.error ErrorKind.InvalidInput :=
  ⟨(C3_no_empty_question_validation okClient [] "s1" " " []).1,
   (C3_no_empty_question_validation okClient [] "s1" " " []).2.1 (by decide),
   (C3_no_empty_question_validation okClient [] "s1" " " []).2.2.1 (by decide),
   (C3_no_empty_question_validation okClient [] "s1" " " []).2.2.2⟩

end HistoryChatbot
